import Mathlib

/-!
# Verification of the `tpdf` page-rendering pipeline and bitmap cache

Shallow embedding of the core of `tpdf` (a terminal PDF viewer): the page
cache (`src/cache.rs`), the dark-mode inversion (`src/dark.rs`) and the
scheduler / coordinator state machine (`src/app.rs`).

Modelling conventions:
* Rust `f32` / `f64` values are modelled as exact rationals (`ℚ`); the
  tolerance constants (`0.01`, `f32::EPSILON`) are carried over verbatim.
  `round()` followed by `as u32` on the non-negative values the program
  produces is modelled by `⌊q + 1/2⌋.toNat`.
* `HashMap` fields are modelled as total functions into `Option`;
  `HashSet<usize>` is modelled as `Finset ℕ`.
* `usize`/`u16`/`u32` arithmetic uses `ℕ`; Rust `saturating_sub` is `ℕ`
  subtraction, which agrees.
* The opaque `ratatui_image::protocol::Protocol` display object is modelled
  as a record of the encoder inputs (the encoded image and target area)
  together with the zoom/pan parameters in force when it was built; the
  zoom/pan fields are ghost data used only to state cache invariants.
* The display encoder (`Picker::new_protocol`) can fail; this is modelled
  by a `Bool`-valued oracle `encOk` carried in the `Picker` model.
* `mpsc` channels: the request channel is modelled by the list of sent
  requests (`sent`); an unbounded `Sender::send` only fails when every
  receiver is dropped, so it is modelled as succeeding.
-/

/-- One RGB pixel (`image::DynamicImage` pixel data as produced by
`pdf.rs`, which always builds `DynamicImage::ImageRgb8`). -/
abbrev Pixel := Fin 256 × Fin 256 × Fin 256

/-- A decoded bitmap: `image::DynamicImage`, row-major RGB pixel data. -/
structure Img where
  width : ℕ
  height : ℕ
  data : List Pixel
deriving DecidableEq

/-- Channel inversion performed by `image::DynamicImage::invert`:
each colour channel `c` becomes `255 - c`. -/
def invertChannel (c : Fin 256) : Fin 256 :=
  ⟨255 - c.val, by omega⟩

/-- Pixel inversion: invert all three colour channels. -/
def invertPixel (p : Pixel) : Pixel :=
  (invertChannel p.1, invertChannel p.2.1, invertChannel p.2.2)

/-- `dark::invert` (src/dark.rs): clone the image and invert it in place
(`image::DynamicImage::invert` inverts every colour channel of every
pixel; dimensions are untouched). -/
def invert (img : Img) : Img :=
  { img with data := img.data.map invertPixel }

/-- `ratatui::layout::Rect` (u16 fields). -/
structure Rect where
  x : ℕ
  y : ℕ
  width : ℕ
  height : ℕ
deriving DecidableEq

/-- `f32::EPSILON` = 2⁻²³. -/
def f32Epsilon : ℚ := 1 / 2 ^ 23

/-- Rust `f32::round()` followed by `as u32`, for the non-negative values
the crop code produces: round half away from zero, saturating at 0 from
below. -/
def rnd (q : ℚ) : ℕ :=
  (⌊q + 1 / 2⌋).toNat

/-- Pixel lookup in the row-major data buffer. -/
def Img.pixel (img : Img) (x y : ℕ) : Pixel :=
  img.data.getD (y * img.width + x) (0, 0, 0)

/-- `crop_dimms` from the `image` crate (`imageops/mod.rs`), the clamping
performed by `DynamicImage::crop_imm`: clamp `x`/`y` into the image, then
shrink `width`/`height` to what remains. -/
def crop_dimms (img : Img) (x y width height : ℕ) :
    Rect :=
  let x := min x img.width
  let y := min y img.height
  let height := min height (img.height - y)
  let width := min width (img.width - x)
  ⟨x, y, width, height⟩

/-- `DynamicImage::crop_imm` from the `image` crate: clamp the requested
rectangle with `crop_dimms`, then copy out that sub-image. -/
def crop_imm (img : Img) (x y width height : ℕ) : Img :=
  let r := crop_dimms img x y width height
  { width := r.width
    height := r.height
    data := (List.range r.height).flatMap fun row =>
      (List.range r.width).map fun col => img.pixel (r.x + col) (r.y + row) }

/-- The rectangle arguments `crop_with_pan` (src/cache.rs lines 113-127)
passes to `crop_imm`: `(x.min(max_x), y.min(max_y), crop_w.max(1),
crop_h.max(1))`. -/
def crop_with_pan_args (img : Img) (zoom pan_x pan_y : ℚ) : Rect :=
  let w := img.width
  let h := img.height
  let crop_w := rnd ((w : ℚ) / zoom)
  let crop_h := rnd ((h : ℚ) / zoom)
  let max_x := w - crop_w
  let max_y := h - crop_h
  let x := rnd ((1 / 2 + pan_x * (1 / 2)) * (max_x : ℚ))
  let y := rnd ((1 / 2 + pan_y * (1 / 2)) * (max_y : ℚ))
  ⟨min x max_x, min y max_y, max crop_w 1, max crop_h 1⟩

/-- The sub-rectangle of the source image actually returned by
`crop_with_pan`, i.e. the requested rectangle after `crop_imm`'s
clamping. -/
def crop_with_pan_rect (img : Img) (zoom pan_x pan_y : ℚ) : Rect :=
  let a := crop_with_pan_args img zoom pan_x pan_y
  crop_dimms img a.x a.y a.width a.height

/-- `crop_with_pan` (src/cache.rs): crop a portion of the image for
zoom-in, offset by pan; pan ranges over [-1, 1] with 0 the centre. -/
def crop_with_pan (img : Img) (zoom pan_x pan_y : ℚ) : Img :=
  let a := crop_with_pan_args img zoom pan_x pan_y
  crop_imm img a.x a.y a.width a.height

/-- The opaque display object (`ratatui_image::protocol::Protocol`).
The source treats it as opaque; the model records the encoder inputs
(`img`, `area`) plus, as ghost data for stating invariants, the zoom/pan
in force when `get_protocol` built it. -/
structure Protocol where
  img : Img
  area : Rect
  builtZoom : ℚ
  builtPan : ℚ × ℚ

/-- The display encoder (`ratatui_image::picker::Picker`): a font cell
pixel size plus a success oracle for `new_protocol` (encoding can fail;
failures are swallowed by the cache). -/
structure Picker where
  fontW : ℕ
  fontH : ℕ
  encOk : Img → Rect → Bool

/-- `Picker::new_protocol(img, area, resize)`, returning `None` on
encoder failure.  `zoom`/`pan` are the ghost tags recorded on success. -/
def Picker.new_protocol (p : Picker) (img : Img) (area : Rect)
    (zoom : ℚ) (pan : ℚ × ℚ) : Option Protocol :=
  if p.encOk img area then some ⟨img, area, zoom, pan⟩ else none

/-- `PageCache` (src/cache.rs lines 9-16). `HashMap`s are total functions
into `Option`. -/
structure PageCache where
  images : ℕ → Option Img
  image_scales : ℕ → Option ℚ
  inverted : ℕ → Option Img
  protocols : ℕ × Bool → Option Protocol
  current_zoom : ℚ
  current_pan : ℚ × ℚ

/-- `PageCache::new`. -/
def PageCache.new : PageCache :=
  { images := fun _ => none
    image_scales := fun _ => none
    inverted := fun _ => none
    protocols := fun _ => none
    current_zoom := 1
    current_pan := (0, 0) }

/-- `PageCache::clear`: drop everything (zoom/pan epoch fields are kept,
as in the source). -/
def PageCache.clear (c : PageCache) : PageCache :=
  { c with
    images := fun _ => none
    image_scales := fun _ => none
    inverted := fun _ => none
    protocols := fun _ => none }

/-- `PageCache::invalidate_protocols`: clear only the display objects. -/
def PageCache.invalidate_protocols (c : PageCache) : PageCache :=
  { c with protocols := fun _ => none }

/-- `PageCache::has_image_at_scale`: true iff a bitmap is stored for the
page whose recorded scale is within `0.01` of `scale`. -/
def PageCache.has_image_at_scale (c : PageCache) (page_idx : ℕ)
    (scale : ℚ) : Bool :=
  ((c.image_scales page_idx).map fun s =>
    decide (|s - scale| < 1 / 100)).getD false

/-- `PageCache::insert_image` (src/cache.rs lines 48-54): remove both
display objects and the inverted variant for the page, then store the new
bitmap and its scale. -/
def PageCache.insert_image (c : PageCache) (page_idx : ℕ) (scale : ℚ)
    (img : Img) : PageCache :=
  { c with
    protocols := fun k =>
      if k = (page_idx, false) ∨ k = (page_idx, true) then none
      else c.protocols k
    inverted := Function.update c.inverted page_idx none
    images := Function.update c.images page_idx (some img)
    image_scales := Function.update c.image_scales page_idx (some scale) }

/-- `PageCache::image_dims`. -/
def PageCache.image_dims (c : PageCache) (page_idx : ℕ) :
    Option (ℕ × ℕ) :=
  (c.images page_idx).map fun img => (img.width, img.height)

/-- The base-image step of `get_protocol` (src/cache.rs lines 86-94):
for dark mode, lazily derive and cache the inverted variant; `?` on a
missing bitmap returns `none` while keeping the mutations so far. -/
def PageCache.get_base (c : PageCache) (page_idx : ℕ) (dark_mode : Bool) :
    Option Img × PageCache :=
  if dark_mode then
    match c.inverted page_idx with
    | some inv => (some inv, c)
    | none =>
      match c.images page_idx with
      | none => (none, c)
      | some normal =>
        (some (invert normal),
         { c with inverted :=
            Function.update c.inverted page_idx (some (invert normal)) })
  else (c.images page_idx, c)

/-- The invalidation step of `get_protocol` (src/cache.rs lines 73-82):
when zoom or pan moved beyond `f32::EPSILON`, clear every display object
and record the new zoom/pan. -/
def PageCache.sync_view (c : PageCache) (zoom : ℚ) (pan : ℚ × ℚ) :
    PageCache :=
  let zoom_changed := |c.current_zoom - zoom| > f32Epsilon
  let pan_changed := |c.current_pan.1 - pan.1| > f32Epsilon ∨
    |c.current_pan.2 - pan.2| > f32Epsilon
  if zoom_changed ∨ pan_changed then
    { c with
        protocols := fun _ => none
        current_zoom := zoom
        current_pan := pan }
  else c

/-- The lookup/derivation step of `get_protocol` (src/cache.rs lines
84-107): return the cached object for `(page, dark_mode)` or derive it
(invert if dark, crop if `zoom > 1`, encode); encoder failure returns
`none`, keeping the state mutations made so far. -/
def PageCache.build_protocol (c : PageCache) (page_idx : ℕ)
    (dark_mode : Bool) (zoom : ℚ) (pan : ℚ × ℚ) (picker : Picker)
    (area : Rect) : Option Protocol × PageCache :=
  let key := (page_idx, dark_mode)
  if (c.protocols key).isSome then (c.protocols key, c)
  else
    match PageCache.get_base c page_idx dark_mode with
    | (none, c) => (none, c)
    | (some base, c) =>
      let img := if zoom > 1 then crop_with_pan base zoom pan.1 pan.2
        else base
      match picker.new_protocol img area zoom pan with
      | none => (none, c)
      | some protocol =>
        let c := { c with
          protocols := Function.update c.protocols key (some protocol) }
        (c.protocols key, c)

/-- `PageCache::get_protocol` (src/cache.rs lines 64-108): the
invalidation step followed by the lookup/derivation step. -/
def PageCache.get_protocol (c : PageCache) (page_idx : ℕ)
    (dark_mode : Bool) (zoom : ℚ) (pan : ℚ × ℚ) (picker : Picker)
    (area : Rect) : Option Protocol × PageCache :=
  (c.sync_view zoom pan).build_protocol page_idx dark_mode zoom pan
    picker area

/-- Index distance between two pages. -/
def pageDist (p center : ℕ) : ℕ :=
  max p center - min p center

/-- Modelled from the spec: `PageCache::evict_distant` is called from
`App::run` (src/app.rs line 274) but its definition is absent from
src/cache.rs.  Spec §4.3: "drops full entries (bitmap + derivations) for
any page whose index distance from `center_page` exceeds `radius`". -/
def PageCache.evict_distant (c : PageCache) (center radius : ℕ) :
    PageCache :=
  { c with
    images := fun p =>
      if radius < pageDist p center then none else c.images p
    image_scales := fun p =>
      if radius < pageDist p center then none else c.image_scales p
    inverted := fun p =>
      if radius < pageDist p center then none else c.inverted p
    protocols := fun k =>
      if radius < pageDist k.1 center then none else c.protocols k }

/-- `PageLayout` (src/app.rs). -/
inductive PageLayout where
  | Single
  | Dual
  | Triple
deriving DecidableEq

/-- `PageLayout::pages_across`. -/
def PageLayout.pages_across : PageLayout → ℕ
  | .Single => 1
  | .Dual => 2
  | .Triple => 3

/-- `PageLayout::cycle`. -/
def PageLayout.cycle : PageLayout → PageLayout
  | .Single => .Dual
  | .Dual => .Triple
  | .Triple => .Single

/-- Input messages (src/app.rs `Message`). -/
inductive Message where
  | Quit
  | NextPage
  | PrevPage
  | FirstPage
  | LastPage
  | ZoomIn
  | ZoomOut
  | ZoomReset
  | ScrollUp
  | ScrollDown
  | ScrollLeft
  | ScrollRight
  | CycleLayout
  | ToggleDarkMode
  | ToggleFullscreen
  | ToggleTextMode
  | EnterGoto
  | GotoInput (c : Char)
  | GotoBackspace
  | GotoConfirm
  | GotoCancel

/-- `RenderRequest` sent from the coordinator to the worker pool. -/
structure RenderRequest where
  idx : ℕ
  scale : ℚ
deriving DecidableEq

/-- `RenderResult` sent back from a worker. -/
structure RenderResult where
  idx : ℕ
  scale : ℚ
  img : Img

/-- The coordinator state (`App`, src/app.rs lines 89-113).  The request
channel is modelled by the list `sent` of requests sent so far, together
with the flag `render_tx` recording whether the channel exists (it is
created exactly when a `Picker` is available). -/
structure App where
  cache : PageCache
  picker : Option Picker
  current_page : ℕ
  page_count : ℕ
  zoom : ℚ
  pan_x : ℚ
  pan_y : ℚ
  layout : PageLayout
  dark_mode : Bool
  fullscreen : Bool
  goto_mode : Bool
  goto_input : String
  text_mode : Bool
  text_scroll : ℕ
  term_cols : ℕ
  term_rows : ℕ
  page_bounds : ℚ × ℚ
  render_tx : Bool
  sent : List RenderRequest
  pending : Finset ℕ
  should_quit : Bool

/-- `App::usable_rows` (src/app.rs lines 285-291): total rows minus one
for the status bar unless fullscreen. -/
def App.usable_rows (a : App) : ℕ :=
  if a.fullscreen then a.term_rows else a.term_rows - 1

/-- `App::render_scale` (src/app.rs lines 374-387): `1.0` with no picker;
otherwise fit the page into the per-page cell area and multiply by
`max(zoom, 1.0)`. -/
def App.render_scale (a : App) : ℚ :=
  match a.picker with
  | none => 1
  | some picker =>
    let pages_across : ℚ := (a.layout.pages_across : ℚ)
    let area_px_w := ((a.term_cols : ℚ) / pages_across) * (picker.fontW : ℚ)
    let area_px_h := (a.usable_rows : ℚ) * (picker.fontH : ℚ)
    let fit := min (area_px_w / a.page_bounds.1) (area_px_h / a.page_bounds.2)
    fit * max a.zoom 1

/-- The scale formula exactly as the spec states it (§4.1):
`fit = min(((cols / pages_across) * cell_px_w) / page_w,
(usable_rows * cell_px_h) / page_h)`; `scale = fit * max(zoom, 1.0)`. -/
def renderScaleSpec (cols usable_rows cell_px_w cell_px_h
    pages_across : ℕ) (page_w page_h zoom : ℚ) : ℚ :=
  let fit := min (((cols : ℚ) / (pages_across : ℚ)) * (cell_px_w : ℚ) / page_w)
    (((usable_rows : ℚ) * (cell_px_h : ℚ)) / page_h)
  fit * max zoom 1

/-- `App::request_page` (src/app.rs lines 468-478): with a live request
channel, send a request and mark the page pending unless the cache
already has a bitmap at this scale or the page is already pending. -/
def App.request_page (a : App) (idx : ℕ) (scale : ℚ) : App :=
  if a.render_tx = false then a
  else if ¬ (a.cache.has_image_at_scale idx scale) ∧ idx ∉ a.pending then
    { a with
      sent := a.sent ++ [⟨idx, scale⟩]
      pending := insert idx a.pending }
  else a

/-- `App::request_visible_pages` (src/app.rs lines 389-413): request the
visible window, then a lookahead/lookbehind ring for offsets `0..5`,
ahead before behind at each offset. -/
def App.request_visible_pages (a : App) : App :=
  if a.render_tx = false then a
  else
    let scale := a.render_scale
    let n := a.layout.pages_across
    let a := (List.range n).foldl (fun acc i =>
      let idx := acc.current_page + i
      if idx < acc.page_count then acc.request_page idx scale else acc) a
    let visible_end := a.current_page + n
    (List.range 5).foldl (fun acc offset =>
      let acc := if visible_end + offset < acc.page_count then
          acc.request_page (visible_end + offset) scale
        else acc
      if offset + 1 ≤ acc.current_page then
        acc.request_page (acc.current_page - (offset + 1)) scale
      else acc) a

/-- `HAlign` (src/view.rs). -/
inductive HAlign where
  | Left
  | Center
  | Right

/-- `view::aligned_image_area` (src/view.rs lines 100-134): sub-rect of
`area` matching the footprint the display encoder will use. -/
def aligned_image_area (img_w img_h : ℕ) (area : Rect)
    (font_w font_h : ℕ) (zoom : ℚ) (halign : HAlign) : Rect :=
  if area.width = 0 ∨ area.height = 0 ∨ img_w = 0 ∨ img_h = 0 then area
  else
    let fw : ℚ := (font_w : ℚ)
    let fh : ℚ := (font_h : ℚ)
    let area_px_w := (area.width : ℚ) * fw
    let area_px_h := (area.height : ℚ) * fh
    let fit_scale := min (area_px_w / (img_w : ℚ)) (area_px_h / (img_h : ℚ))
    let display_scale := fit_scale * min zoom 1
    let used_w := (⌈(img_w : ℚ) * display_scale / fw⌉).toNat
    let used_h := (⌈(img_h : ℚ) * display_scale / fh⌉).toNat
    let final_w := max (min used_w area.width) 1
    let final_h := max (min used_h area.height) 1
    let x_off := match halign with
      | .Left => 0
      | .Center => (area.width - final_w) / 2
      | .Right => area.width - final_w
    let y_off := (area.height - final_h) / 2
    ⟨area.x + x_off, area.y + y_off, final_w, final_h⟩

/-- The body of the drain loop in `App::process_render_results`
(src/app.rs lines 320-326): remove the result's page from the pending
set, and insert the bitmap into the cache exactly when its scale is
within `0.01` of `current_scale` (the target scale computed once at the
start of the drain). -/
def App.process_one_result (a : App) (current_scale : ℚ)
    (r : RenderResult) : App :=
  let a := { a with pending := a.pending.erase r.idx }
  if |r.scale - current_scale| < 1 / 100 then
    { a with cache := a.cache.insert_image r.idx r.scale r.img }
  else a

/-- The protocol pre-warm pass of `App::process_render_results`
(src/app.rs lines 328-358), run when at least one result was accepted:
derive display objects for the visible window plus three pages ahead. -/
def App.prewarm_protocols (a : App) (picker : Picker) : App :=
  let n := a.layout.pages_across
  let per_page_width := a.term_cols / n
  let usable := a.usable_rows
  let prewarm_start := a.current_page
  let prewarm_end := min (a.current_page + n + 3) a.page_count
  (List.range (prewarm_end - prewarm_start)).foldl (fun acc i =>
    let idx := prewarm_start + i
    match acc.cache.image_dims idx with
    | none => acc
    | some (w, h) =>
      let page_area : Rect := ⟨0, 0, per_page_width, usable⟩
      let render_area := aligned_image_area w h page_area
        picker.fontW picker.fontH acc.zoom HAlign.Center
      let step := acc.cache.get_protocol idx acc.dark_mode acc.zoom
        (acc.pan_x, acc.pan_y) picker render_area
      { acc with cache := step.2 }) a

/-- `App::process_render_results` (src/app.rs lines 309-360): drain the
given list of available results, then pre-warm display objects if any
result was accepted.  Returns the updated state and whether anything was
received. -/
def App.process_render_results (a : App) (results : List RenderResult) :
    App × Bool :=
  if a.render_tx = false then (a, false)
  else
    match a.picker with
    | none => (a, false)
    | some picker =>
      let current_scale := a.render_scale
      let step := results.foldl (fun (acc : App × Bool) r =>
        (acc.1.process_one_result current_scale r,
         acc.2 || decide (|r.scale - current_scale| < 1 / 100))) (a, false)
      if step.2 then (step.1.prewarm_protocols picker, true) else step

/-- Modelled from Rust `str::parse::<usize>` as used by the goto-confirm
handler: an optional leading `+` followed by one or more ASCII digits;
fails on anything else or on overflow past `usize::MAX` (64-bit). -/
def parseUsize (s : String) : Option ℕ :=
  let digits := match s.data with
    | '+' :: rest => rest
    | cs => cs
  if digits = [] ∨ ¬ digits.all Char.isDigit then none
  else
    let v := digits.foldl (fun acc c => acc * 10 + (c.toNat - 48)) 0
    if v < 2 ^ 64 then some v else none

/-- `App::reset_pan`. -/
def App.reset_pan (a : App) : App :=
  { a with pan_x := 0, pan_y := 0 }

/-- `App::update` (src/app.rs lines 486-598): the message handler. -/
def App.update (a : App) (msg : Message) : App :=
  match msg with
  | .Quit => { a with should_quit := true }
  | .NextPage =>
    { a with
      current_page := min (a.current_page + 1) (a.page_count - 1)
      text_scroll := 0 }
  | .PrevPage =>
    { a with current_page := a.current_page - 1, text_scroll := 0 }
  | .FirstPage => { a with current_page := 0, text_scroll := 0 }
  | .LastPage =>
    { a with current_page := a.page_count - 1, text_scroll := 0 }
  | .ZoomIn =>
    ({ a with zoom := min (a.zoom + 1 / 10) 4, pending := ∅ }).reset_pan
  | .ZoomOut =>
    ({ a with zoom := max (a.zoom - 1 / 10) (1 / 4), pending := ∅ }).reset_pan
  | .ZoomReset =>
    ({ a with zoom := 1, pending := ∅ }).reset_pan
  | .ScrollUp =>
    if a.text_mode then { a with text_scroll := a.text_scroll - 3 }
    else if a.zoom > 1 then { a with pan_y := max (a.pan_y - 3 / 20) (-1) }
    else a
  | .ScrollDown =>
    if a.text_mode then { a with text_scroll := a.text_scroll + 3 }
    else if a.zoom > 1 then { a with pan_y := min (a.pan_y + 3 / 20) 1 }
    else a
  | .ScrollLeft =>
    if a.zoom > 1 then { a with pan_x := max (a.pan_x - 3 / 20) (-1) }
    else a
  | .ScrollRight =>
    if a.zoom > 1 then { a with pan_x := min (a.pan_x + 3 / 20) 1 }
    else a
  | .CycleLayout =>
    { a with
      layout := a.layout.cycle
      cache := a.cache.invalidate_protocols }
  | .ToggleDarkMode => { a with dark_mode := !a.dark_mode }
  | .ToggleFullscreen =>
    { a with
      fullscreen := !a.fullscreen
      cache := a.cache.clear
      pending := ∅ }
  | .ToggleTextMode =>
    if a.picker.isSome then
      let a := { a with text_mode := !a.text_mode, text_scroll := 0 }
      if a.text_mode = false then
        ({ a with cache := a.cache.clear, pending := ∅ }).request_visible_pages
      else a
    else a
  | .EnterGoto => { a with goto_mode := true, goto_input := "" }
  | .GotoInput c =>
    if a.goto_input.length < 10 then
      { a with goto_input := a.goto_input.push c }
    else a
  | .GotoBackspace => { a with goto_input := a.goto_input.dropRight 1 }
  | .GotoConfirm =>
    let a := match parseUsize a.goto_input with
      | some page =>
        if 1 ≤ page ∧ page ≤ a.page_count then
          { a with current_page := page - 1 }
        else a
      | none => a
    { a with goto_mode := false, goto_input := "", text_scroll := 0 }
  | .GotoCancel => { a with goto_mode := false, goto_input := "" }

/-- Concrete fixtures used by the closed instantiation theorems below. -/
def sampleImg : Img :=
  ⟨2, 2, [(0, 0, 0), (255, 255, 255), (0, 255, 0), (255, 0, 255)]⟩

def samplePicker : Picker :=
  ⟨10, 20, fun _ _ => true⟩

def sampleArea : Rect :=
  ⟨0, 0, 80, 24⟩

def sampleApp : App :=
  { cache := PageCache.new
    picker := some samplePicker
    current_page := 0
    page_count := 100
    zoom := 1
    pan_x := 0
    pan_y := 0
    layout := PageLayout.Single
    dark_mode := false
    fullscreen := false
    goto_mode := false
    goto_input := ""
    text_mode := false
    text_scroll := 0
    term_cols := 80
    term_rows := 24
    page_bounds := (612, 792)
    render_tx := true
    sent := []
    pending := ∅
    should_quit := false }

def sampleResult : RenderResult :=
  ⟨3, 1, sampleImg⟩

lemma sync_view_images (c : PageCache) (zoom : ℚ) (pan : ℚ × ℚ) :
    (c.sync_view zoom pan).images = c.images ∧
    (c.sync_view zoom pan).image_scales = c.image_scales ∧
    (c.sync_view zoom pan).inverted = c.inverted := by
  unfold PageCache.sync_view
  dsimp only
  split <;> exact ⟨rfl, rfl, rfl⟩

lemma sync_view_changed (c : PageCache) (zoom : ℚ) (pan : ℚ × ℚ)
    (h : |c.current_zoom - zoom| > f32Epsilon ∨
      |c.current_pan.1 - pan.1| > f32Epsilon ∨
      |c.current_pan.2 - pan.2| > f32Epsilon) :
    (c.sync_view zoom pan).protocols = (fun _ => none) ∧
    (c.sync_view zoom pan).current_zoom = zoom ∧
    (c.sync_view zoom pan).current_pan = pan := by
  unfold PageCache.sync_view
  dsimp only
  rw [if_pos]
  · exact ⟨rfl, rfl, rfl⟩
  · tauto

lemma sync_view_protocols_none (c : PageCache) (zoom : ℚ) (pan : ℚ × ℚ)
    (k : ℕ × Bool) (h : c.protocols k = none) :
    (c.sync_view zoom pan).protocols k = none := by
  unfold PageCache.sync_view
  dsimp only
  split
  · rfl
  · exact h

lemma get_base_fields (c : PageCache) (p : ℕ) (m : Bool) :
    (c.get_base p m).2.protocols = c.protocols ∧
    (c.get_base p m).2.current_zoom = c.current_zoom ∧
    (c.get_base p m).2.current_pan = c.current_pan ∧
    (c.get_base p m).2.images = c.images ∧
    (c.get_base p m).2.image_scales = c.image_scales := by
  unfold PageCache.get_base
  cases m with
  | false => exact ⟨rfl, rfl, rfl, rfl, rfl⟩
  | true =>
    cases hi : c.inverted p with
    | some inv => simp [hi]
    | none =>
      cases him : c.images p with
      | none => simp [hi, him]
      | some normal => simp [hi, him]

lemma get_base_of_miss (c : PageCache) (p : ℕ) (m : Bool) (i : Img)
    (hinv : c.inverted p = none) (himg : c.images p = some i) :
    (c.get_base p m).1 = some (if m then invert i else i) := by
  unfold PageCache.get_base
  cases m with
  | false => simp [himg]
  | true => simp [hinv, himg]

lemma build_protocol_fresh (c : PageCache) (p : ℕ) (m : Bool) (z : ℚ)
    (pan : ℚ × ℚ) (pk : Picker) (ar : Rect) (pr : Protocol) (i : Img)
    (hkey : c.protocols (p, m) = none)
    (hinv : c.inverted p = none) (himg : c.images p = some i)
    (h : (c.build_protocol p m z pan pk ar).1 = some pr) :
    pr.img = (if z > 1 then
        crop_with_pan (if m then invert i else i) z pan.1 pan.2
      else (if m then invert i else i)) ∧
    pr.area = ar ∧ pr.builtZoom = z ∧ pr.builtPan = pan := by
  unfold PageCache.build_protocol at h
  dsimp only at h
  rw [hkey] at h
  simp only [Option.isSome_none, Bool.false_eq_true, if_false] at h
  have hb := get_base_of_miss c p m i hinv himg
  cases hgb : c.get_base p m with
  | mk ob c₂ =>
    rw [hgb] at h hb
    dsimp only at hb
    subst hb
    dsimp only at h
    simp only [Picker.new_protocol] at h
    by_cases he : pk.encOk (if z > 1 then
        crop_with_pan (if m then invert i else i) z pan.1 pan.2
      else (if m then invert i else i)) ar = true
    · rw [if_pos he] at h
      dsimp only at h
      rw [Function.update_same] at h
      simp only [Option.some.injEq] at h
      subst h
      exact ⟨rfl, rfl, rfl, rfl⟩
    · rw [if_neg he] at h
      cases h

lemma build_protocol_other_keys (c : PageCache) (p : ℕ) (m : Bool)
    (z : ℚ) (pan : ℚ × ℚ) (pk : Picker) (ar : Rect) (k : ℕ × Bool)
    (hk : k ≠ (p, m)) :
    (c.build_protocol p m z pan pk ar).2.protocols k = c.protocols k := by
  unfold PageCache.build_protocol
  dsimp only
  split
  · rfl
  · split
    next ob c₂ heq =>
      have hf := (get_base_fields c p m).1
      rw [heq] at hf
      exact congrFun hf k
    next ob base c₂ heq =>
      have hf := (get_base_fields c p m).1
      rw [heq] at hf
      dsimp only at hf ⊢
      split
      · exact congrFun hf k
      · dsimp only
        rw [Function.update_noteq hk]
        exact congrFun hf k

lemma build_protocol_key_tags (c : PageCache) (p : ℕ) (m : Bool)
    (z : ℚ) (pan : ℚ × ℚ) (pk : Picker) (ar : Rect) (pr : Protocol)
    (hkey : c.protocols (p, m) = none)
    (h : (c.build_protocol p m z pan pk ar).2.protocols (p, m) = some pr) :
    pr.builtZoom = z ∧ pr.builtPan = pan := by
  unfold PageCache.build_protocol at h
  dsimp only at h
  rw [hkey] at h
  simp only [Option.isSome_none, Bool.false_eq_true, if_false] at h
  split at h
  next ob c₂ heq =>
    have hf := (get_base_fields c p m).1
    rw [heq] at hf
    try dsimp only at h
    rw [congrFun hf (p, m), hkey] at h
    cases h
  next ob base c₂ heq =>
    have hf := (get_base_fields c p m).1
    rw [heq] at hf
    try dsimp only at h
    cases hnp : pk.new_protocol
        (if z > 1 then crop_with_pan base z pan.1 pan.2 else base) ar z pan with
    | none =>
      rw [hnp] at h
      try dsimp only at h
      rw [congrFun hf (p, m), hkey] at h
      cases h
    | some protocol =>
      rw [hnp] at h
      try dsimp only at h
      rw [Function.update_same] at h
      simp only [Option.some.injEq] at h
      subst h
      unfold Picker.new_protocol at hnp
      by_cases he2 : pk.encOk
          (if z > 1 then crop_with_pan base z pan.1 pan.2 else base) ar = true
      · rw [if_pos he2] at hnp
        simp only [Option.some.injEq] at hnp
        subst hnp
        exact ⟨rfl, rfl⟩
      · rw [if_neg he2] at hnp
        cases hnp

lemma build_protocol_current (c : PageCache) (p : ℕ) (m : Bool)
    (z : ℚ) (pan : ℚ × ℚ) (pk : Picker) (ar : Rect) :
    (c.build_protocol p m z pan pk ar).2.current_zoom = c.current_zoom ∧
    (c.build_protocol p m z pan pk ar).2.current_pan = c.current_pan := by
  unfold PageCache.build_protocol
  dsimp only
  split
  · exact ⟨rfl, rfl⟩
  · split
    next ob c₂ heq =>
      have hf := get_base_fields c p m
      rw [heq] at hf
      exact ⟨hf.2.1, hf.2.2.1⟩
    next ob base c₂ heq =>
      have hf := get_base_fields c p m
      rw [heq] at hf
      try dsimp only
      split
      · exact ⟨hf.2.1, hf.2.2.1⟩
      · exact ⟨hf.2.1, hf.2.2.1⟩

/-- **C10**: the dark-mode inversion is an involution: inverting twice
returns the original pixel buffer, and inversion preserves the buffer's
width and height. -/
theorem invert_involution (img : Img) :
    invert (invert img) = img ∧
    (invert img).width = img.width ∧
    (invert img).height = img.height := by
  refine ⟨?_, rfl, rfl⟩
  have hp : ∀ p : Pixel, invertPixel (invertPixel p) = p := by
    rintro ⟨⟨r, hr⟩, ⟨g, hg⟩, ⟨b, hb⟩⟩
    simp only [invertPixel, invertChannel, Prod.mk.injEq, Fin.mk.injEq]
    omega
  cases img with
  | mk w h data =>
    simp only [invert]
    congr 1
    rw [List.map_map, show invertPixel ∘ invertPixel = id from funext hp,
      List.map_id]

/-- **C1**: `insert_image` unconditionally removes the page's cached
inverted variant and both display objects (light and dark keys), stores
the new bitmap and scale, and a subsequent `get_protocol` for the page
derives its display object afresh from the newly stored bitmap. -/
theorem insert_image_resets_page (c : PageCache) (p : ℕ) (s : ℚ)
    (img : Img) :
    ((c.insert_image p s img).protocols (p, false) = none ∧
      (c.insert_image p s img).protocols (p, true) = none) ∧
    (c.insert_image p s img).inverted p = none ∧
    (c.insert_image p s img).images p = some img ∧
    (c.insert_image p s img).image_scales p = some s ∧
    (∀ (m : Bool) (z : ℚ) (pan : ℚ × ℚ) (pk : Picker) (ar : Rect)
      (pr : Protocol),
      ((c.insert_image p s img).get_protocol p m z pan pk ar).1 = some pr →
      pr.img = (if z > 1 then
          crop_with_pan (if m then invert img else img) z pan.1 pan.2
        else (if m then invert img else img))) := by
  refine ⟨⟨?_, ?_⟩, ?_, ?_, ?_, ?_⟩
  · simp [PageCache.insert_image]
  · simp [PageCache.insert_image]
  · simp [PageCache.insert_image]
  · simp [PageCache.insert_image]
  · simp [PageCache.insert_image]
  · intro m z pan pk ar pr h
    unfold PageCache.get_protocol at h
    have hkey : ((c.insert_image p s img).sync_view z pan).protocols
        (p, m) = none := by
      apply sync_view_protocols_none
      cases m <;> simp [PageCache.insert_image]
    have hsf := sync_view_images (c.insert_image p s img) z pan
    have hinv : ((c.insert_image p s img).sync_view z pan).inverted p =
        none := by
      rw [hsf.2.2]
      simp [PageCache.insert_image]
    have himg : ((c.insert_image p s img).sync_view z pan).images p =
        some img := by
      rw [hsf.1]
      simp [PageCache.insert_image]
    exact (build_protocol_fresh _ p m z pan pk ar pr img hkey hinv
      himg h).1

/-- **C5** (spec-modelled, `evict_distant` is absent from src/cache.rs):
after `evict_distant(center, radius)`, every page farther than `radius`
from `center` has no bitmap at any scale, no inverted variant and no
display object, while pages within `radius` keep all their entries. -/
theorem evict_distant_drops_far_pages (c : PageCache)
    (center radius p : ℕ) :
    (radius < pageDist p center →
      (∀ s : ℚ,
        (c.evict_distant center radius).has_image_at_scale p s = false) ∧
      (c.evict_distant center radius).images p = none ∧
      (c.evict_distant center radius).inverted p = none ∧
      (∀ m : Bool,
        (c.evict_distant center radius).protocols (p, m) = none)) ∧
    (pageDist p center ≤ radius →
      (c.evict_distant center radius).images p = c.images p ∧
      (c.evict_distant center radius).image_scales p =
        c.image_scales p ∧
      (c.evict_distant center radius).inverted p = c.inverted p ∧
      (∀ m : Bool, (c.evict_distant center radius).protocols (p, m) =
        c.protocols (p, m))) := by
  constructor
  · intro h
    refine ⟨?_, ?_, ?_, ?_⟩ <;>
      simp [PageCache.evict_distant, PageCache.has_image_at_scale, h]
  · intro h
    have h' : ¬ radius < pageDist p center := not_lt.mpr h
    refine ⟨?_, ?_, ?_, ?_⟩ <;> simp [PageCache.evict_distant, h']

/-- Closed instantiation of `evict_distant_drops_far_pages`: page 20 is
dropped when evicting around page 0 with radius 15. -/
theorem evict_distant_drops_far_pages_witness :
    ((PageCache.new.insert_image 20 1 sampleImg).evict_distant 0 15).images
      20 = none :=
  ((evict_distant_drops_far_pages
    (PageCache.new.insert_image 20 1 sampleImg) 0 15 20).1
    (by norm_num [pageDist])).2.1

/-- **C4**: `render_scale` equals `fit * max(zoom, 1.0)` where `fit` is
the minimum of the width and height fit ratios over the per-page cell
area, with usable rows equal to total rows minus one unless
fullscreen. -/
theorem render_scale_formula (a : App) (picker : Picker)
    (h : a.picker = some picker) :
    a.render_scale = renderScaleSpec a.term_cols a.usable_rows
      picker.fontW picker.fontH a.layout.pages_across
      a.page_bounds.1 a.page_bounds.2 a.zoom ∧
    a.usable_rows =
      (if a.fullscreen then a.term_rows else a.term_rows - 1) := by
  constructor
  · unfold App.render_scale renderScaleSpec
    rw [h]
  · rfl

/-- Closed instantiation of `render_scale_formula` at `sampleApp`. -/
theorem render_scale_formula_witness :
    sampleApp.render_scale = renderScaleSpec sampleApp.term_cols
      sampleApp.usable_rows samplePicker.fontW samplePicker.fontH
      sampleApp.layout.pages_across sampleApp.page_bounds.1
      sampleApp.page_bounds.2 sampleApp.zoom :=
  (render_scale_formula sampleApp samplePicker rfl).1

/-- **C6**: the drain-loop body of `process_render_results` removes the
result's page index from the pending set regardless of its scale, and
inserts the bitmap into the cache exactly when the result's scale is
within 0.01 of the current target scale; a stale-scale result leaves the
cache unchanged. -/
theorem process_result_step (a : App) (r : RenderResult) :
    r.idx ∉ (a.process_one_result a.render_scale r).pending ∧
    (|r.scale - a.render_scale| < 1 / 100 →
      (a.process_one_result a.render_scale r).cache =
        a.cache.insert_image r.idx r.scale r.img) ∧
    (¬ |r.scale - a.render_scale| < 1 / 100 →
      (a.process_one_result a.render_scale r).cache = a.cache) := by
  unfold App.process_one_result
  dsimp only
  split
  next hlt =>
    exact ⟨Finset.not_mem_erase _ _, fun _ => rfl,
      fun hn => absurd hlt hn⟩
  next hlt =>
    exact ⟨Finset.not_mem_erase _ _, fun hy => absurd hy hlt,
      fun _ => rfl⟩

/-- Closed instantiation of `process_result_step` at `sampleApp`. -/
theorem process_result_step_witness :
    (3 : ℕ) ∉
      (sampleApp.process_one_result sampleApp.render_scale
        sampleResult).pending :=
  (process_result_step sampleApp sampleResult).1

/-- **C2**: when the zoom or either pan component passed to
`get_protocol` differs from the cache's remembered values by more than
`f32::EPSILON`, every previously cached display object (every page, both
mode keys) is cleared, the remembered zoom/pan are updated, and every
display object present afterwards was built under the new (zoom, pan). -/
theorem get_protocol_zoom_pan_invalidation (c : PageCache) (p : ℕ)
    (m : Bool) (zoom : ℚ) (pan : ℚ × ℚ) (pk : Picker) (ar : Rect)
    (h : |c.current_zoom - zoom| > f32Epsilon ∨
      |c.current_pan.1 - pan.1| > f32Epsilon ∨
      |c.current_pan.2 - pan.2| > f32Epsilon) :
    (c.get_protocol p m zoom pan pk ar).2.current_zoom = zoom ∧
    (c.get_protocol p m zoom pan pk ar).2.current_pan = pan ∧
    (∀ k, k ≠ (p, m) →
      (c.get_protocol p m zoom pan pk ar).2.protocols k = none) ∧
    (∀ k pr,
      (c.get_protocol p m zoom pan pk ar).2.protocols k = some pr →
      pr.builtZoom = zoom ∧ pr.builtPan = pan) := by
  have hs := sync_view_changed c zoom pan h
  unfold PageCache.get_protocol
  have hcur := build_protocol_current (c.sync_view zoom pan) p m zoom
    pan pk ar
  refine ⟨?_, ?_, ?_, ?_⟩
  · rw [hcur.1, hs.2.1]
  · rw [hcur.2, hs.2.2]
  · intro k hk
    rw [build_protocol_other_keys _ p m zoom pan pk ar k hk]
    exact congrFun hs.1 k
  · intro k pr hpr
    by_cases hk : k = (p, m)
    · subst hk
      exact build_protocol_key_tags _ p m zoom pan pk ar pr
        (congrFun hs.1 (p, m)) hpr
    · rw [build_protocol_other_keys _ p m zoom pan pk ar k hk,
        congrFun hs.1 k] at hpr
      cases hpr

/-- Closed instantiation of `get_protocol_zoom_pan_invalidation`:
zoom 2 against a fresh cache (remembered zoom 1) updates the epoch. -/
theorem get_protocol_zoom_pan_invalidation_witness :
    (PageCache.new.get_protocol 0 false 2 (0, 0) samplePicker
      sampleArea).2.current_zoom = 2 :=
  (get_protocol_zoom_pan_invalidation PageCache.new 0 false 2 (0, 0)
    samplePicker sampleArea
    (Or.inl (by norm_num [PageCache.new, f32Epsilon]))).1

lemma request_page_eq (a : App) (idx : ℕ) (s : ℚ)
    (h : a.render_tx = true) :
    a.request_page idx s =
      if a.cache.has_image_at_scale idx s = false ∧ idx ∉ a.pending then
        { a with
          sent := a.sent ++ [⟨idx, s⟩]
          pending := insert idx a.pending }
      else a := by
  unfold App.request_page
  rw [h]
  simp only [Bool.true_eq_false, if_false, Bool.not_eq_true]

/-- **C7**: `request_page` sends a request and inserts the page into the
pending set exactly when the cache has no bitmap at that scale and the
page is not already pending; a second identical request before the
result arrives sends nothing further (the pending set, a `Finset`, holds
each index at most once by construction). -/
theorem request_page_gating (a : App) (idx : ℕ) (s : ℚ)
    (h : a.render_tx = true) :
    (((a.request_page idx s).sent = a.sent ++ [⟨idx, s⟩] ∧
      (a.request_page idx s).pending = insert idx a.pending) ↔
      (a.cache.has_image_at_scale idx s = false ∧ idx ∉ a.pending)) ∧
    ((a.request_page idx s).request_page idx s).sent =
      (a.request_page idx s).sent := by
  rw [request_page_eq a idx s h]
  by_cases hc : a.cache.has_image_at_scale idx s = false ∧
    idx ∉ a.pending
  · rw [if_pos hc]
    refine ⟨⟨fun _ => hc, fun _ => ⟨rfl, rfl⟩⟩, ?_⟩
    have h2 := request_page_eq
      { a with
        sent := a.sent ++ [⟨idx, s⟩]
        pending := insert idx a.pending } idx s h
    rw [h2, if_neg]
    intro hcc
    exact hcc.2 (Finset.mem_insert_self idx _)
  · rw [if_neg hc]
    refine ⟨⟨?_, fun hcc => absurd hcc hc⟩, ?_⟩
    · rintro ⟨hsent, -⟩
      exfalso
      have hl := congrArg List.length hsent
      simp at hl
    · rw [request_page_eq a idx s h, if_neg hc]

/-- Closed instantiation of `request_page_gating` at `sampleApp`. -/
theorem request_page_gating_witness :
    ((sampleApp.request_page 0 1).request_page 0 1).sent =
      (sampleApp.request_page 0 1).sent :=
  (request_page_gating sampleApp 0 1 rfl).2

lemma request_page_nav (a : App) (idx : ℕ) (s : ℚ) :
    (a.request_page idx s).current_page = a.current_page ∧
    (a.request_page idx s).page_count = a.page_count := by
  unfold App.request_page
  split
  · exact ⟨rfl, rfl⟩
  · split
    · exact ⟨rfl, rfl⟩
    · exact ⟨rfl, rfl⟩

lemma ite_request_nav (b : App) (cond : Prop) [Decidable cond]
    (idx : ℕ) (s : ℚ) :
    ((if cond then b.request_page idx s else b).current_page =
      b.current_page) ∧
    ((if cond then b.request_page idx s else b).page_count =
      b.page_count) := by
  split
  · exact request_page_nav b idx s
  · exact ⟨rfl, rfl⟩

lemma foldl_nav (f : App → ℕ → App)
    (hf : ∀ acc x, (f acc x).current_page = acc.current_page ∧
      (f acc x).page_count = acc.page_count) :
    ∀ (l : List ℕ) (a : App),
      ((l.foldl f a).current_page = a.current_page ∧
        (l.foldl f a).page_count = a.page_count)
  | [], a => ⟨rfl, rfl⟩
  | x :: xs, a => by
    simp only [List.foldl_cons]
    obtain ⟨h1, h2⟩ := foldl_nav f hf xs (f a x)
    exact ⟨h1.trans (hf a x).1, h2.trans (hf a x).2⟩

lemma request_visible_pages_nav (a : App) :
    a.request_visible_pages.current_page = a.current_page ∧
    a.request_visible_pages.page_count = a.page_count := by
  unfold App.request_visible_pages
  dsimp only
  split
  · exact ⟨rfl, rfl⟩
  · have hf1 : ∀ (acc : App) (i : ℕ),
        ((if acc.current_page + i < acc.page_count then
          acc.request_page (acc.current_page + i) a.render_scale
        else acc).current_page = acc.current_page ∧
        (if acc.current_page + i < acc.page_count then
          acc.request_page (acc.current_page + i) a.render_scale
        else acc).page_count = acc.page_count) := by
      intro acc i
      exact ite_request_nav acc _ _ _
    obtain ⟨h1c, h1p⟩ := foldl_nav _ hf1
      (List.range a.layout.pages_across) a
    set a₁ := (List.range a.layout.pages_across).foldl _ a with ha₁
    have hf2 : ∀ (acc : App) (offset : ℕ),
        ((let acc' := if a₁.current_page + a.layout.pages_across +
            offset < acc.page_count then
            acc.request_page (a₁.current_page + a.layout.pages_across +
              offset) a.render_scale
          else acc
        if offset + 1 ≤ acc'.current_page then
          acc'.request_page (acc'.current_page - (offset + 1))
            a.render_scale
        else acc').current_page = acc.current_page ∧
        (let acc' := if a₁.current_page + a.layout.pages_across +
            offset < acc.page_count then
            acc.request_page (a₁.current_page + a.layout.pages_across +
              offset) a.render_scale
          else acc
        if offset + 1 ≤ acc'.current_page then
          acc'.request_page (acc'.current_page - (offset + 1))
            a.render_scale
        else acc').page_count = acc.page_count) := by
      intro acc offset
      dsimp only
      obtain ⟨hi1, hi2⟩ := ite_request_nav acc
        (a₁.current_page + a.layout.pages_across + offset <
          acc.page_count)
        (a₁.current_page + a.layout.pages_across + offset)
        a.render_scale
      set acc' := if a₁.current_page + a.layout.pages_across + offset <
          acc.page_count then
          acc.request_page (a₁.current_page + a.layout.pages_across +
            offset) a.render_scale
        else acc with hacc'
      obtain ⟨hj1, hj2⟩ := ite_request_nav acc'
        (offset + 1 ≤ acc'.current_page)
        (acc'.current_page - (offset + 1)) a.render_scale
      exact ⟨hj1.trans hi1, hj2.trans hi2⟩
    obtain ⟨h2c, h2p⟩ := foldl_nav _ hf2 (List.range 5) a₁
    exact ⟨h2c.trans h1c, h2p.trans h1p⟩

lemma goto_confirm_current_page (a : App) :
    (a.update Message.GotoConfirm).current_page =
      (match parseUsize a.goto_input with
        | some page =>
          if 1 ≤ page ∧ page ≤ a.page_count then page - 1
          else a.current_page
        | none => a.current_page) := by
  unfold App.update
  cases hp : parseUsize a.goto_input with
  | none => rfl
  | some page =>
    by_cases hr : 1 ≤ page ∧ page ≤ a.page_count
    · simp [hr]
    · simp [hr]

/-- **C9**: for any state with `page_count ≥ 1` and a valid
`current_page`, processing any single input message keeps
`current_page < page_count`; goto-confirm only moves to a page when the
parsed number lies in `[1, page_count]`. -/
theorem update_keeps_current_page_in_range (a : App) (msg : Message)
    (h1 : 1 ≤ a.page_count) (h2 : a.current_page < a.page_count) :
    (a.update msg).current_page < a.page_count ∧
    ((a.update Message.GotoConfirm).current_page ≠ a.current_page →
      ∃ n, parseUsize a.goto_input = some n ∧ 1 ≤ n ∧
        n ≤ a.page_count ∧
        (a.update Message.GotoConfirm).current_page = n - 1) := by
  constructor
  · cases msg with
    | Quit => exact h2
    | NextPage =>
      simp only [App.update]
      omega
    | PrevPage =>
      simp only [App.update]
      omega
    | FirstPage =>
      simp only [App.update]
      omega
    | LastPage =>
      simp only [App.update]
      omega
    | ZoomIn => exact h2
    | ZoomOut => exact h2
    | ZoomReset => exact h2
    | ScrollUp =>
      simp only [App.update]
      split_ifs <;> exact h2
    | ScrollDown =>
      simp only [App.update]
      split_ifs <;> exact h2
    | ScrollLeft =>
      simp only [App.update]
      split_ifs <;> exact h2
    | ScrollRight =>
      simp only [App.update]
      split_ifs <;> exact h2
    | CycleLayout => exact h2
    | ToggleDarkMode => exact h2
    | ToggleFullscreen => exact h2
    | ToggleTextMode =>
      simp only [App.update]
      split_ifs with hpk htm
      · rw [(request_visible_pages_nav _).1]
        exact h2
      · exact h2
      · exact h2
    | EnterGoto => exact h2
    | GotoInput c =>
      simp only [App.update]
      split_ifs <;> exact h2
    | GotoBackspace => exact h2
    | GotoConfirm =>
      rw [goto_confirm_current_page]
      cases hp : parseUsize a.goto_input with
      | none => exact h2
      | some page =>
        dsimp only
        split_ifs with hr
        · obtain ⟨hr1, hr2⟩ := hr
          exact Nat.lt_of_lt_of_le (Nat.sub_lt hr1 Nat.one_pos) hr2
        · exact h2
    | GotoCancel => exact h2
  · intro hne
    rw [goto_confirm_current_page] at hne
    rw [goto_confirm_current_page]
    cases hp : parseUsize a.goto_input with
    | none =>
      rw [hp] at hne
      exact absurd rfl hne
    | some n =>
      rw [hp] at hne
      dsimp only at hne
      by_cases hr : 1 ≤ n ∧ n ≤ a.page_count
      · exact ⟨n, rfl, hr.1, hr.2, by simp [hr]⟩
      · rw [if_neg hr] at hne
        exact absurd rfl hne

/-- Closed instantiation of `update_keeps_current_page_in_range` at
`sampleApp` with a next-page message. -/
theorem update_keeps_current_page_in_range_witness :
    (sampleApp.update Message.NextPage).current_page <
      sampleApp.page_count :=
  (update_keeps_current_page_in_range sampleApp Message.NextPage
    (by decide) (by decide)).1

/-- **C8**: with 100 pages, single layout, current page 0, empty cache
and empty pending set, one run of the request step sends exactly pages
0 (visible) then 1..5 (ahead), in that order, with no behind
requests. -/
theorem request_step_initial_order (a : App)
    (htx : a.render_tx = true) (hl : a.layout = PageLayout.Single)
    (hcp : a.current_page = 0) (hpc : a.page_count = 100)
    (hc : a.cache = PageCache.new) (hp : a.pending = ∅) :
    a.request_visible_pages.sent = a.sent ++
      [⟨0, a.render_scale⟩, ⟨1, a.render_scale⟩, ⟨2, a.render_scale⟩,
       ⟨3, a.render_scale⟩, ⟨4, a.render_scale⟩, ⟨5, a.render_scale⟩] := by
  unfold App.request_visible_pages
  simp only [htx, Bool.true_eq_false, if_false, hl, PageLayout.pages_across]
  norm_num [show List.range 1 = [0] from rfl,
    show List.range 5 = [0, 1, 2, 3, 4] from rfl,
    List.foldl_cons, List.foldl_nil, App.request_page, htx, hc, hp, hcp,
    hpc, PageCache.has_image_at_scale, PageCache.new, Finset.mem_insert,
    Finset.not_mem_empty]

/-- Closed instantiation of `request_step_initial_order` at
`sampleApp`. -/
theorem request_step_initial_order_witness :
    sampleApp.request_visible_pages.sent = sampleApp.sent ++
      [⟨0, sampleApp.render_scale⟩, ⟨1, sampleApp.render_scale⟩,
       ⟨2, sampleApp.render_scale⟩, ⟨3, sampleApp.render_scale⟩,
       ⟨4, sampleApp.render_scale⟩, ⟨5, sampleApp.render_scale⟩] :=
  request_step_initial_order sampleApp rfl rfl rfl rfl rfl rfl

lemma one_le_rnd_div (w : ℕ) (z : ℚ) (hw : 2 ≤ w) (hz1 : 1 / 4 ≤ z)
    (hz2 : z ≤ 4) : 1 ≤ rnd ((w : ℚ) / z) := by
  have h0 : (0 : ℚ) < z := lt_of_lt_of_le (by norm_num) hz1
  have h2 : (2 : ℚ) ≤ (w : ℚ) := by exact_mod_cast hw
  have hq : (1 : ℚ) / 2 ≤ (w : ℚ) / z := by
    rw [le_div_iff₀ h0]
    linarith
  have hf : (1 : ℤ) ≤ ⌊(w : ℚ) / z + 1 / 2⌋ := by
    apply Int.le_floor.mpr
    push_cast
    linarith
  unfold rnd
  omega

/-- Counterexample to **C3** as stated: the 1×1 bitmap at zoom 4 and pan
(1, 1) — all inside the claim's domain (w, h ≥ 1, zoom ∈ [0.25, 4],
pan ∈ [-1, 1]²) — produces a crop of width 0: the rounded crop width
`round(1/4) = 0` makes `max_x = 1`, the pan offset reaches `x = 1`, and
`crop_imm`'s clamping then shrinks the requested `width = max(0,1) = 1`
to `1 - 1 = 0`. -/
theorem crop_with_pan_claim_counterexample :
    ¬ (∀ (img : Img) (z px py : ℚ), 1 ≤ img.width → 1 ≤ img.height →
      1 / 4 ≤ z → z ≤ 4 → -1 ≤ px → px ≤ 1 → -1 ≤ py → py ≤ 1 →
      (crop_with_pan_rect img z px py).x +
        (crop_with_pan_rect img z px py).width ≤ img.width ∧
      (crop_with_pan_rect img z px py).y +
        (crop_with_pan_rect img z px py).height ≤ img.height ∧
      1 ≤ (crop_with_pan img z px py).width ∧
      1 ≤ (crop_with_pan img z px py).height) := by
  intro h
  have hinst := (h ⟨1, 1, [(0, 0, 0)]⟩ 4 1 1 (by norm_num) (by norm_num)
    (by norm_num) (by norm_num) (by norm_num) (by norm_num)
    (by norm_num) (by norm_num)).2.2.1
  have hzero : (crop_with_pan ⟨1, 1, [(0, 0, 0)]⟩ 4 1 1).width = 0 := by
    norm_num [crop_with_pan, crop_with_pan_args, crop_imm, crop_dimms,
      rnd]
  rw [hzero] at hinst
  exact absurd hinst (by norm_num)

/-- **C3 (amended)**: for a source bitmap of width ≥ 2 and height ≥ 2
(excluding only the degenerate one-pixel dimensions exposed by the
counterexample), every zoom in [0.25, 4] and pan in [-1, 1]²,
`crop_with_pan` returns a sub-region fully inside the source bounds with
width ≥ 1 and height ≥ 1. -/
theorem crop_with_pan_stays_inside (img : Img) (z px py : ℚ)
    (hw : 2 ≤ img.width) (hh : 2 ≤ img.height)
    (hz1 : 1 / 4 ≤ z) (hz2 : z ≤ 4)
    (hpx1 : -1 ≤ px) (hpx2 : px ≤ 1) (hpy1 : -1 ≤ py) (hpy2 : py ≤ 1) :
    (crop_with_pan_rect img z px py).x +
      (crop_with_pan_rect img z px py).width ≤ img.width ∧
    (crop_with_pan_rect img z px py).y +
      (crop_with_pan_rect img z px py).height ≤ img.height ∧
    1 ≤ (crop_with_pan_rect img z px py).width ∧
    1 ≤ (crop_with_pan_rect img z px py).height ∧
    (crop_with_pan img z px py).width =
      (crop_with_pan_rect img z px py).width ∧
    (crop_with_pan img z px py).height =
      (crop_with_pan_rect img z px py).height := by
  have hcw := one_le_rnd_div img.width z hw hz1 hz2
  have hch := one_le_rnd_div img.height z hh hz1 hz2
  unfold crop_with_pan_rect crop_with_pan crop_with_pan_args crop_imm
    crop_dimms
  dsimp only
  refine ⟨?_, ?_, ?_, ?_, rfl, rfl⟩ <;> omega

/-- Closed instantiation of `crop_with_pan_stays_inside` on the 2×2
sample bitmap at zoom 4, pan (1, 1). -/
theorem crop_with_pan_stays_inside_witness :
    1 ≤ (crop_with_pan_rect sampleImg 4 1 1).width :=
  (crop_with_pan_stays_inside sampleImg 4 1 1 (by norm_num [sampleImg])
    (by norm_num [sampleImg]) (by norm_num) (by norm_num) (by norm_num)
    (by norm_num) (by norm_num) (by norm_num)).2.2.1
